import Mathlib

/-
Verification of the sync engine of sync-nostr-relay.

The engine under study is `syncEvents` in `src/etc/util.ts` (the NDK-based
engine taking `initialUntilTimestamp` and `syncStopAtTimestamp`), embedded
below as a pure, fuel-bounded function over an explicit environment
(`SyncWorld`) that supplies batch-fetch results, relay connectivity, the
seen-on sighting index and publish outcomes.  Progress messages built with
`Date.toLocaleString()` are elided; every other observable field of a
progress record (status, syncedUntilTimestamp, stopAtTimestamp,
currentEventId, errorDetails) is modelled.  The batch-fetch timeout logic of
the older engine in `src/components/util.ts` (lines 122-185) is embedded
separately as `runBatchFetch`.
-/

namespace SyncNostrRelay

/-- A Nostr event, restricted to the fields the engine reads. -/
structure NostrEvent where
  id : String
  created_at : Int
  deriving Repr, DecidableEq, Inhabited

/-- An NDK filter, with the fields the two canonical filters use.
`ptags` models the `#p` field. -/
structure NDKFilter where
  kinds : List Int
  authors : List String
  ptags : List String
  since : Option Int
  untilTs : Option Int
  limit : Option Nat
  deriving Repr, DecidableEq

/-- The `SyncStatus` union of `src/etc/types.ts`. -/
inductive SyncStatus
  | idle
  | fetching_relays
  | fetching_batch
  | syncing_event
  | batch_complete
  | error
  | complete
  deriving Repr, DecidableEq

/-- A `SyncProgress` record (`src/etc/types.ts`), minus the free-text
`message` field. -/
structure SyncProgress where
  status : SyncStatus
  syncedUntilTimestamp : Option Int
  stopAtTimestamp : Option Int
  currentEventId : Option String
  errorDetails : Option String
  deriving Repr, DecidableEq

/-- Result of one batch fetch as seen by the engine: the resolved event list,
or the message of the rejection it catches as `queryError`. -/
inductive FetchResult
  | ok (events : List NostrEvent)
  | err (msg : String)
  deriving Repr, DecidableEq

/-- Outcome of `event.publish(...)`: success, an `NDKPublishError` carrying a
per-relay `(url, error message)` map, or another thrown error with its
message. -/
inductive PublishOutcome
  | ok
  | ndkError (errors : List (String × String))
  | otherError (msg : String)
  deriving Repr, DecidableEq

/-- The environment of a run: what the network delivers.  `fetch` is indexed
by the batch number, `seenOn` models `ndk.subManager.seenEvents`, `connected`
models each pool relay's `connected` flag, and `publish` gives the outcome of
publishing a given event id. -/
structure SyncWorld where
  fetch : Nat → FetchResult
  connected : String → Bool
  seenOn : String → Option (List String)
  publish : String → PublishOutcome

/-- One publish call issued by the engine: which event, its timestamp, and
the relay set it was sent to. -/
structure PublishCall where
  eventId : String
  createdAt : Int
  relays : List String
  deriving Repr, DecidableEq

/-- The observable outcome of a run: the returned boolean, the stream of
progress records, the publish calls issued, the `until` cursor of each batch
fetch performed, the final state of the (mutated) filter, and the final
`totalSyncedCount`. -/
structure RunOutput where
  success : Bool
  progress : List SyncProgress
  pubs : List PublishCall
  fetches : List Int
  finalFilter : NDKFilter
  total : Nat
  deriving Repr, DecidableEq

/-- The `batchSize` constant of line 96: number of events per batch. -/
def batchSize : Nat := 20

/-- Substring test on character lists: does the second list contain the
first as a contiguous segment? -/
def charsContain (pat : List Char) : List Char → Bool
  | [] => pat.isEmpty
  | c :: rest => pat.isPrefixOf (c :: rest) || charsContain pat rest

/-- JS `String.prototype.includes`, as used at line 277. -/
def strIncludes (s pat : String) : Bool :=
  charsContain pat.toList s.toList

/-- JS truthiness of the optional stop timestamp: `undefined` and `0` are
falsy, every other number is truthy. -/
def truthyStop : Option Int → Bool
  | none => false
  | some s => s != 0

/-- The numeric value of the stop timestamp; only ever read under
`truthyStop`. -/
def stopValue (s : Option Int) : Int := s.getD 0

/-- The comparator of line 178, `(a, b) => b.created_at - a.created_at`,
as the relation "a sorts no later than b" (newest first). -/
def byCreatedDesc (a b : NostrEvent) : Prop := b.created_at ≤ a.created_at

instance : DecidableRel byCreatedDesc := fun a b => Int.decLe b.created_at a.created_at

instance : IsTotal NostrEvent byCreatedDesc :=
  ⟨fun a b => Int.le_total b.created_at a.created_at⟩

instance : IsTrans NostrEvent byCreatedDesc :=
  ⟨fun _ _ _ h1 h2 => le_trans h2 h1⟩

/-- Line 178: sort the fetched events newest first (JS `Array.sort` is
stable). -/
def sortDescEvents (l : List NostrEvent) : List NostrEvent :=
  l.insertionSort byCreatedDesc

/-- Line 183: slice the sorted events to the batch size. -/
def keptSlice (l : List NostrEvent) : List NostrEvent :=
  (sortDescEvents l).take batchSize

/-- Line 186: `events[events.length - 1].created_at`, the oldest timestamp
of the kept slice (0 as the out-of-bounds placeholder; the engine only reads
it for a nonempty batch). -/
def batchOldestTimestamp (l : List NostrEvent) : Int :=
  ((keptSlice l).getLast?.map NostrEvent.created_at).getD 0

/-- Line 232: the URLs recorded in the seen-on index for an event id, or
`[]` when the index has no entry. -/
def seenUrls (w : SyncWorld) (eid : String) : List String :=
  (w.seenOn eid).getD []

/-- Lines 235-237: the target relays that do not yet have the event. -/
def missingRelays (w : SyncWorld) (targets : List String) (eid : String) :
    List String :=
  targets.filter (fun url => !((seenUrls w eid).contains url))

/-- Lines 260-275: the `failedRelaysInfo` string built from an
`NDKPublishError`. -/
def publishErrorInfo (errors : List (String × String)) : String :=
  "Failed relays (" ++ toString errors.length ++ "): " ++
    String.intercalate "; " (errors.map (fun p => p.1 ++ ": " ++ p.2))

/-- Progress record of lines 102-107 and 119-124 (status `fetching_batch`,
cursor and stop timestamp echoed). -/
def fetchingBatchRecord (cursor : Int) (stopAt : Option Int) : SyncProgress :=
  ⟨SyncStatus.fetching_batch, some cursor, stopAt, none, none⟩

/-- Progress record of lines 156-162 (fetch failure, cursor kept). -/
def fetchErrorRecord (cursor : Int) (stopAt : Option Int) (msg : String) :
    SyncProgress :=
  ⟨SyncStatus.error, some cursor, stopAt, none, some msg⟩

/-- Progress record of lines 168-173 (complete: no more older events). -/
def completeNoMoreRecord (cursor : Int) (stopAt : Option Int) : SyncProgress :=
  ⟨SyncStatus.complete, some cursor, stopAt, none, none⟩

/-- Progress record of lines 192-197 (disconnected relay; the URL is carried
in `errorDetails`, the cursor is kept, no stop timestamp is echoed). -/
def disconnectedRecord (cursor : Int) (url : String) : SyncProgress :=
  ⟨SyncStatus.error, some cursor, none, none, some ("Unable to connect " ++ url)⟩

/-- Progress record of lines 216-221 (an event is being synced). -/
def syncingEventRecord (cursor : Int) (eid : String) : SyncProgress :=
  ⟨SyncStatus.syncing_event, some cursor, none, some eid, none⟩

/-- Progress record of lines 281-287 (fatal publish failure). -/
def publishErrorRecord (cursor : Int) (eid : String) (info : String) :
    SyncProgress :=
  ⟨SyncStatus.error, some cursor, none, some eid, some info⟩

/-- Progress record of lines 302-307 (complete: reached the stop date; the
cursor has already been advanced past the batch). -/
def completeStopRecord (cursor : Int) (stopAt : Option Int) : SyncProgress :=
  ⟨SyncStatus.complete, some cursor, stopAt, none, none⟩

/-- Progress record of lines 312-316 (batch done, continuing). -/
def batchCompleteRecord (cursor : Int) : SyncProgress :=
  ⟨SyncStatus.batch_complete, some cursor, none, none, none⟩

/-- Progress record of lines 85-89 (no target relays). -/
def noRelaysRecord : SyncProgress :=
  ⟨SyncStatus.error, none, none, none, none⟩

/-- Result of the per-event loop of lines 202-294: whether the loop ran to
its end (`ok = true`; a `stopAt` break also ends it) or hit a fatal publish
failure and returned (`ok = false`), the updated `totalSyncedCount`, and the
progress records and publish calls it emitted, in order. -/
structure InnerOut where
  ok : Bool
  total : Nat
  records : List SyncProgress
  calls : List PublishCall
  deriving Repr, DecidableEq

/-- The per-event loop of lines 202-294, over the sliced batch. -/
def processEvents (w : SyncWorld) (targets : List String) (stopAt : Option Int)
    (cursor : Int) : List NostrEvent → Nat → InnerOut
  | [], total => ⟨true, total, [], []⟩
  | e :: rest, total =>
    if truthyStop stopAt && decide (e.created_at < stopValue stopAt) then
      ⟨true, total, [], []⟩
    else
      let rec1 := syncingEventRecord cursor e.id
      let toPub := missingRelays w targets e.id
      if toPub.isEmpty then
        let r := processEvents w targets stopAt cursor rest (total + 1)
        ⟨r.ok, r.total, rec1 :: r.records, r.calls⟩
      else
        let call : PublishCall := ⟨e.id, e.created_at, toPub⟩
        match w.publish e.id with
        | PublishOutcome.ok =>
          let r := processEvents w targets stopAt cursor rest (total + 1)
          ⟨r.ok, r.total, rec1 :: r.records, call :: r.calls⟩
        | PublishOutcome.ndkError errs =>
          let info := publishErrorInfo errs
          if strIncludes info "deletion" then
            let r := processEvents w targets stopAt cursor rest total
            ⟨r.ok, r.total, rec1 :: r.records, call :: r.calls⟩
          else
            ⟨false, total, [rec1, publishErrorRecord cursor e.id info], [call]⟩
        | PublishOutcome.otherError msg =>
          if strIncludes msg "deletion" then
            let r := processEvents w targets stopAt cursor rest total
            ⟨r.ok, r.total, rec1 :: r.records, call :: r.calls⟩
          else
            ⟨false, total, [rec1, publishErrorRecord cursor e.id msg], [call]⟩

/-- The `while (true)` loop of lines 117-320, bounded by `fuel` iterations
(`none` means the fuel ran out before the run ended).  Arguments after the
environment: fuel, current filter state, `syncUntilTimestamp`,
`totalSyncedCount`, and the index of the next batch. -/
def syncLoop (w : SyncWorld) (targets : List String) (stopAt : Option Int) :
    Nat → NDKFilter → Int → Nat → Nat → Option RunOutput
  | 0, _, _, _, _ => none
  | fuel + 1, fl, cursor, total, idx =>
    let fl1 := { fl with untilTs := some cursor }
    let fb := fetchingBatchRecord cursor stopAt
    match w.fetch idx with
    | FetchResult.err msg =>
      some ⟨false, [fb, fetchErrorRecord cursor stopAt msg], [], [cursor], fl1, total⟩
    | FetchResult.ok evs =>
      if evs.isEmpty then
        some ⟨true, [fb, completeNoMoreRecord cursor stopAt], [], [cursor], fl1, total⟩
      else
        let oldest := batchOldestTimestamp evs
        match targets.find? (fun url => !(w.connected url)) with
        | some url =>
          some ⟨false, [fb, disconnectedRecord cursor url], [], [cursor], fl1, total⟩
        | none =>
          let r := processEvents w targets stopAt cursor (keptSlice evs) total
          if r.ok then
            let cursor2 := oldest - 1
            if truthyStop stopAt && decide (oldest ≤ stopValue stopAt) then
              some ⟨true, fb :: r.records ++ [completeStopRecord cursor2 stopAt],
                r.calls, [cursor], fl1, r.total⟩
            else
              match syncLoop w targets stopAt fuel fl1 cursor2 r.total (idx + 1) with
              | none => none
              | some o =>
                some ⟨o.success, fb :: r.records ++ batchCompleteRecord cursor2 :: o.progress,
                  r.calls ++ o.pubs, cursor :: o.fetches, o.finalFilter, o.total⟩
          else
            some ⟨false, fb :: r.records, r.calls, [cursor], fl1, r.total⟩

/-- The `syncEvents` function of `src/etc/util.ts`, lines 75-335. -/
def syncEvents (w : SyncWorld) (targetRealyUrls : List String)
    (filter : NDKFilter) (initialUntilTimestamp : Int)
    (syncStopAtTimestamp : Option Int) (fuel : Nat) : Option RunOutput :=
  if targetRealyUrls.isEmpty then
    some ⟨false, [noRelaysRecord], [], [], filter, 0⟩
  else
    (syncLoop w targetRealyUrls syncStopAtTimestamp fuel
        { filter with limit := some batchSize } initialUntilTimestamp 0 0).map
      (fun o => { o with progress :=
        fetchingBatchRecord initialUntilTimestamp syncStopAtTimestamp :: o.progress })

/-- The default close reason of nostr-tools, `src/components/constant.ts`. -/
def NOSTR_TOOLS_DEFAULT_CLOSE_REASON : String := "closed by caller"

/-- The `batchFetchTimeoutMs` constant of `src/components/util.ts` line 122. -/
def batchFetchTimeoutMs : Int := 15000

/-- The internal subscription timeout of `src/components/util.ts` lines
127-144: the `setTimeout` deadline `batchFetchTimeoutMs - 3_000`. -/
def internalFetchTimeoutMs : Int := batchFetchTimeoutMs - 3000

/-- Which of the batch-fetch callbacks of `src/components/util.ts` fires
first: the internal timeout, or EOSE followed by the close handler with the
relays' close reasons. -/
inductive FetchRace
  | timeoutFirst
  | eoseThenClose (closeReasons : List String)
  deriving Repr, DecidableEq

/-- Outcome of the batch-fetch promise of `src/components/util.ts` lines
124-185: how it settled, and whether a cooperative `sub.close()` was
attempted. -/
structure FetchAttemptResult where
  outcome : Except String (List NostrEvent)
  closeAttempted : Bool

/-- The batch-fetch promise of `src/components/util.ts` lines 124-185,
with `events` the events accumulated by `onevent`. -/
def runBatchFetch (events : List NostrEvent) : FetchRace → FetchAttemptResult
  | FetchRace.timeoutFirst =>
    ⟨Except.error ("Batch fetch timed out after " ++ toString internalFetchTimeoutMs ++ "ms"),
      true⟩
  | FetchRace.eoseThenClose reasons =>
    let unexpected := reasons.filter (fun r => r != NOSTR_TOOLS_DEFAULT_CLOSE_REASON)
    if unexpected.isEmpty then ⟨Except.ok events, true⟩
    else
      ⟨Except.error ("Unexpected closure: " ++ String.intercalate ", " unexpected), true⟩

/-- The reassembly applied to the recursive loop result when a batch
completes and the run continues (the `some o` arm of the recursive call in
`syncLoop`). -/
def contGlue (r : InnerOut) (cursor cursor2 : Int) (stopAt : Option Int)
    (o : RunOutput) : RunOutput :=
  ⟨o.success,
    fetchingBatchRecord cursor stopAt :: r.records ++ batchCompleteRecord cursor2 :: o.progress,
    r.calls ++ o.pubs, cursor :: o.fetches, o.finalFilter, o.total⟩

/-- Every publish call the engine issues targets exactly the missing set of
its event at the moment of evaluation, is nonempty, and (when a truthy stop
timestamp is set) concerns an event no older than the stop timestamp. -/
def PubCallSpec (w : SyncWorld) (targets : List String) (stopAt : Option Int)
    (p : PublishCall) : Prop :=
  p.relays = missingRelays w targets p.eventId ∧ p.relays ≠ [] ∧
    (truthyStop stopAt = true → stopValue stopAt ≤ p.createdAt)

/-- Erase the echoed stop timestamp from a progress record. -/
def scrubProgress (p : SyncProgress) : SyncProgress :=
  { p with stopAtTimestamp := none }

/-- Erase the echoed stop timestamps from a run's progress stream. -/
def scrubRun (o : RunOutput) : RunOutput :=
  { o with progress := o.progress.map scrubProgress }

/-- A filter used by the concrete test runs below. -/
def cxFilter : NDKFilter := ⟨[1], ["pk"], [], none, none, none⟩

/-- A world where the first batch holds one event and publishing it fails
with one per-relay reason containing "deletion" and one not. -/
def wDeletionMix : SyncWorld :=
  ⟨fun n => if n = 0 then FetchResult.ok [⟨"e1", 100⟩] else FetchResult.ok [],
   fun _ => true, fun _ => none,
   fun _ => PublishOutcome.ndkError
     [("wss://a/", "deletion: user requested"), ("wss://b/", "rate-limited")]⟩

/-- A world where every batch fetch returns no events and every relay
reports disconnected. -/
def wEmptyDisc : SyncWorld :=
  ⟨fun _ => FetchResult.ok [], fun _ => false, fun _ => none,
   fun _ => PublishOutcome.ok⟩

/-- A world whose only event is already seen on the single target relay. -/
def wSimple : SyncWorld :=
  ⟨fun n => if n = 0 then FetchResult.ok [⟨"e1", 100⟩] else FetchResult.ok [],
   fun _ => true, fun _ => some ["wss://a/"], fun _ => PublishOutcome.ok⟩

/-- A world whose only event is seen nowhere and publishes successfully. -/
def wPub : SyncWorld :=
  ⟨fun n => if n = 0 then FetchResult.ok [⟨"e1", 100⟩] else FetchResult.ok [],
   fun _ => true, fun _ => none, fun _ => PublishOutcome.ok⟩

/-- A world whose only event fails to publish with a single non-deletion
per-relay reason. -/
def wFatal : SyncWorld :=
  ⟨fun n => if n = 0 then FetchResult.ok [⟨"e1", 100⟩] else FetchResult.ok [],
   fun _ => true, fun _ => none,
   fun _ => PublishOutcome.ndkError [("wss://b/", "rate-limited")]⟩

/-- A world whose every batch fetch fails. -/
def wErr : SyncWorld :=
  ⟨fun _ => FetchResult.err "Batch fetch timed out after 12000ms",
   fun _ => true, fun _ => none, fun _ => PublishOutcome.ok⟩

/-- A world with one first-batch event and a disconnected relay. -/
def wDiscNE : SyncWorld :=
  ⟨fun n => if n = 0 then FetchResult.ok [⟨"e1", 100⟩] else FetchResult.ok [],
   fun _ => false, fun _ => none, fun _ => PublishOutcome.ok⟩

/-- A world delivering one event above and one below a stop timestamp of 30. -/
def wStop : SyncWorld :=
  ⟨fun n => if n = 0 then FetchResult.ok [⟨"old", 10⟩, ⟨"new", 50⟩]
    else FetchResult.ok [],
   fun _ => true, fun _ => none, fun _ => PublishOutcome.ok⟩

/-- The output of `syncEvents wEmptyDisc ["wss://a/"] cxFilter 50 none 1`. -/
def outEmpty : RunOutput :=
  ⟨true, [fetchingBatchRecord 50 none, fetchingBatchRecord 50 none,
    completeNoMoreRecord 50 none], [], [50],
    ⟨[1], ["pk"], [], none, some 50, some 20⟩, 0⟩

/-- The output of `syncEvents wSimple ["wss://a/"] cxFilter 200 none 2`. -/
def outSimple : RunOutput :=
  ⟨true, [fetchingBatchRecord 200 none, fetchingBatchRecord 200 none,
    syncingEventRecord 200 "e1", batchCompleteRecord 99,
    fetchingBatchRecord 99 none, completeNoMoreRecord 99 none], [], [200, 99],
    ⟨[1], ["pk"], [], none, some 99, some 20⟩, 1⟩

/-- The output of `syncEvents wPub ["wss://a/"] cxFilter 200 none 2`. -/
def outPub : RunOutput :=
  ⟨true, [fetchingBatchRecord 200 none, fetchingBatchRecord 200 none,
    syncingEventRecord 200 "e1", batchCompleteRecord 99,
    fetchingBatchRecord 99 none, completeNoMoreRecord 99 none],
    [⟨"e1", 100, ["wss://a/"]⟩], [200, 99],
    ⟨[1], ["pk"], [], none, some 99, some 20⟩, 1⟩

/-- The output of `syncEvents wStop ["wss://a/"] cxFilter 60 (some 30) 1`. -/
def outStop : RunOutput :=
  ⟨true, [fetchingBatchRecord 60 (some 30), fetchingBatchRecord 60 (some 30),
    syncingEventRecord 60 "new", completeStopRecord 9 (some 30)],
    [⟨"new", 50, ["wss://a/"]⟩], [60],
    ⟨[1], ["pk"], [], none, some 60, some 20⟩, 1⟩

/-
Helper lemmas about the sorted slice.
-/

lemma isEmpty_false_of_ne_nil {α : Type _} {l : List α} (h : l ≠ []) :
    l.isEmpty = false := by
  cases l with
  | nil => exact absurd rfl h
  | cons a t => rfl

lemma keptSlice_pairwise (l : List NostrEvent) :
    (keptSlice l).Pairwise byCreatedDesc := by
  have hs : (sortDescEvents l).Pairwise byCreatedDesc :=
    List.sorted_insertionSort byCreatedDesc l
  exact List.Pairwise.sublist (List.take_sublist _ _) hs

lemma keptSlice_ne_nil {l : List NostrEvent} (h : l ≠ []) : keptSlice l ≠ [] := by
  intro h0
  unfold keptSlice at h0
  rcases List.take_eq_nil_iff.mp h0 with h1 | h1
  · exact absurd h1 (by decide)
  · exact h ((h1 ▸ List.perm_insertionSort byCreatedDesc l : ([] : List NostrEvent).Perm l)).nil_eq.symm

lemma mem_of_mem_keptSlice {l : List NostrEvent} {e : NostrEvent}
    (h : e ∈ keptSlice l) : e ∈ l :=
  (List.perm_insertionSort byCreatedDesc l).mem_iff.mp (List.mem_of_mem_take h)

lemma batchOldest_spec {l : List NostrEvent} (h : l ≠ []) :
    ∃ e, (keptSlice l).getLast? = some e ∧ e ∈ l ∧
      batchOldestTimestamp l = e.created_at := by
  have hk := keptSlice_ne_nil h
  cases hlast : (keptSlice l).getLast? with
  | none => exact absurd (List.getLast?_eq_none_iff.mp hlast) hk
  | some e =>
    refine ⟨e, rfl, ?_, ?_⟩
    · exact mem_of_mem_keptSlice (List.mem_of_mem_getLast? (by simp [hlast]))
    · unfold batchOldestTimestamp
      rw [hlast]
      rfl

lemma pairwise_getLast_min :
    ∀ (l : List NostrEvent), l.Pairwise byCreatedDesc → ∀ {e}, l.getLast? = some e →
      ∀ x ∈ l, e.created_at ≤ x.created_at := by
  intro l
  induction l with
  | nil => intro _ e he; simp at he
  | cons a t ih =>
    intro hp e he x hx
    rcases List.pairwise_cons.mp hp with ⟨ha, hp2⟩
    cases t with
    | nil =>
      simp at he hx
      rw [← he, hx]
    | cons b t2 =>
      rw [List.getLast?_cons_cons] at he
      rcases List.mem_cons.mp hx with hx | hx
      · have hmem : e ∈ b :: t2 := List.mem_of_mem_getLast? (by simp [he])
        rw [hx]
        exact ha e hmem
      · exact ih hp2 he x hx

lemma batchOldest_min {l : List NostrEvent} {x : NostrEvent} (hx : x ∈ keptSlice l) :
    batchOldestTimestamp l ≤ x.created_at := by
  have hk : keptSlice l ≠ [] := by
    intro h0
    rw [h0] at hx
    simp at hx
  cases hlast : (keptSlice l).getLast? with
  | none => exact absurd (List.getLast?_eq_none_iff.mp hlast) hk
  | some e =>
    have hmin := pairwise_getLast_min (keptSlice l) (keptSlice_pairwise l) hlast x hx
    unfold batchOldestTimestamp
    rw [hlast]
    exact hmin

lemma processEvents_calls (w : SyncWorld) (targets : List String)
    (stopAt : Option Int) (cursor : Int) :
    ∀ (evs : List NostrEvent) (total : Nat),
      ∀ p ∈ (processEvents w targets stopAt cursor evs total).calls,
        PubCallSpec w targets stopAt p := by
  intro evs
  induction evs with
  | nil =>
    intro total p hp
    simp [processEvents] at hp
  | cons e rest ih =>
    intro total p hp
    by_cases hg : (truthyStop stopAt && decide (e.created_at < stopValue stopAt)) = true
    · simp [processEvents, hg] at hp
    · have hspec : missingRelays w targets e.id ≠ [] →
          PubCallSpec w targets stopAt ⟨e.id, e.created_at, missingRelays w targets e.id⟩ := by
        intro hne
        refine ⟨rfl, hne, ?_⟩
        intro ht
        rw [ht, Bool.true_and] at hg
        have := of_decide_eq_false (Bool.not_eq_true _ ▸ hg :
          decide (e.created_at < stopValue stopAt) = false)
        show stopValue stopAt ≤ e.created_at
        omega
      rw [Bool.not_eq_true] at hg
      by_cases hemp : (missingRelays w targets e.id).isEmpty = true
      · simp only [processEvents, hg, Bool.false_eq_true, if_false, hemp, if_true] at hp
        exact ih _ p hp
      · have hne : missingRelays w targets e.id ≠ [] := by
          intro h0
          rw [h0] at hemp
          exact hemp rfl
        cases hpub : w.publish e.id with
        | ok =>
          simp only [processEvents, hg, Bool.false_eq_true, if_false, hemp, hpub] at hp
          rcases List.mem_cons.mp hp with hp | hp
          · rw [hp]; exact hspec hne
          · exact ih _ p hp
        | ndkError errs =>
          by_cases hdel : strIncludes (publishErrorInfo errs) "deletion" = true
          · simp only [processEvents, hg, Bool.false_eq_true, if_false, hemp, hpub, hdel,
              if_true] at hp
            rcases List.mem_cons.mp hp with hp | hp
            · rw [hp]; exact hspec hne
            · exact ih _ p hp
          · simp only [processEvents, hg, Bool.false_eq_true, if_false, hemp, hpub, hdel] at hp
            rcases List.mem_cons.mp hp with hp | hp
            · rw [hp]; exact hspec hne
            · simp at hp
        | otherError msg =>
          by_cases hdel : strIncludes msg "deletion" = true
          · simp only [processEvents, hg, Bool.false_eq_true, if_false, hemp, hpub, hdel,
              if_true] at hp
            rcases List.mem_cons.mp hp with hp | hp
            · rw [hp]; exact hspec hne
            · exact ih _ p hp
          · simp only [processEvents, hg, Bool.false_eq_true, if_false, hemp, hpub, hdel] at hp
            rcases List.mem_cons.mp hp with hp | hp
            · rw [hp]; exact hspec hne
            · simp at hp

/-
One-step unfolding lemmas for the main loop.
-/

lemma syncLoop_fetchErr {w : SyncWorld} {targets : List String} {stopAt : Option Int}
    {fuel : Nat} {fl : NDKFilter} {cursor : Int} {total idx : Nat} {msg : String}
    (hf : w.fetch idx = FetchResult.err msg) :
    syncLoop w targets stopAt (fuel + 1) fl cursor total idx =
      some ⟨false, [fetchingBatchRecord cursor stopAt, fetchErrorRecord cursor stopAt msg],
        [], [cursor], { fl with untilTs := some cursor }, total⟩ := by
  simp only [syncLoop, hf]

lemma syncLoop_emptyBatch {w : SyncWorld} {targets : List String} {stopAt : Option Int}
    {fuel : Nat} {fl : NDKFilter} {cursor : Int} {total idx : Nat}
    (hf : w.fetch idx = FetchResult.ok []) :
    syncLoop w targets stopAt (fuel + 1) fl cursor total idx =
      some ⟨true, [fetchingBatchRecord cursor stopAt, completeNoMoreRecord cursor stopAt],
        [], [cursor], { fl with untilTs := some cursor }, total⟩ := by
  simp only [syncLoop, hf, List.isEmpty_nil, if_true]

lemma syncLoop_disconnected {w : SyncWorld} {targets : List String} {stopAt : Option Int}
    {fuel : Nat} {fl : NDKFilter} {cursor : Int} {total idx : Nat}
    {evs : List NostrEvent} {url : String}
    (hf : w.fetch idx = FetchResult.ok evs) (hne : evs ≠ [])
    (hfind : targets.find? (fun u => !(w.connected u)) = some url) :
    syncLoop w targets stopAt (fuel + 1) fl cursor total idx =
      some ⟨false, [fetchingBatchRecord cursor stopAt, disconnectedRecord cursor url],
        [], [cursor], { fl with untilTs := some cursor }, total⟩ := by
  simp only [syncLoop, hf, isEmpty_false_of_ne_nil hne, Bool.false_eq_true, if_false, hfind]

lemma syncLoop_abort {w : SyncWorld} {targets : List String} {stopAt : Option Int}
    {fuel : Nat} {fl : NDKFilter} {cursor : Int} {total idx : Nat}
    {evs : List NostrEvent}
    (hf : w.fetch idx = FetchResult.ok evs) (hne : evs ≠ [])
    (hfind : targets.find? (fun u => !(w.connected u)) = none)
    (hr : (processEvents w targets stopAt cursor (keptSlice evs) total).ok = false) :
    syncLoop w targets stopAt (fuel + 1) fl cursor total idx =
      some ⟨false,
        fetchingBatchRecord cursor stopAt ::
          (processEvents w targets stopAt cursor (keptSlice evs) total).records,
        (processEvents w targets stopAt cursor (keptSlice evs) total).calls,
        [cursor], { fl with untilTs := some cursor },
        (processEvents w targets stopAt cursor (keptSlice evs) total).total⟩ := by
  simp only [syncLoop, hf, isEmpty_false_of_ne_nil hne, Bool.false_eq_true, if_false, hfind,
    hr]

lemma syncLoop_stopComplete {w : SyncWorld} {targets : List String} {stopAt : Option Int}
    {fuel : Nat} {fl : NDKFilter} {cursor : Int} {total idx : Nat}
    {evs : List NostrEvent}
    (hf : w.fetch idx = FetchResult.ok evs) (hne : evs ≠ [])
    (hfind : targets.find? (fun u => !(w.connected u)) = none)
    (hr : (processEvents w targets stopAt cursor (keptSlice evs) total).ok = true)
    (hstop : (truthyStop stopAt &&
      decide (batchOldestTimestamp evs ≤ stopValue stopAt)) = true) :
    syncLoop w targets stopAt (fuel + 1) fl cursor total idx =
      some ⟨true,
        fetchingBatchRecord cursor stopAt ::
          (processEvents w targets stopAt cursor (keptSlice evs) total).records ++
            [completeStopRecord (batchOldestTimestamp evs - 1) stopAt],
        (processEvents w targets stopAt cursor (keptSlice evs) total).calls,
        [cursor], { fl with untilTs := some cursor },
        (processEvents w targets stopAt cursor (keptSlice evs) total).total⟩ := by
  simp only [syncLoop, hf, isEmpty_false_of_ne_nil hne, Bool.false_eq_true, if_false, hfind,
    hr, if_true, hstop]

lemma syncLoop_continue {w : SyncWorld} {targets : List String} {stopAt : Option Int}
    {fuel : Nat} {fl : NDKFilter} {cursor : Int} {total idx : Nat}
    {evs : List NostrEvent}
    (hf : w.fetch idx = FetchResult.ok evs) (hne : evs ≠ [])
    (hfind : targets.find? (fun u => !(w.connected u)) = none)
    (hr : (processEvents w targets stopAt cursor (keptSlice evs) total).ok = true)
    (hstop : (truthyStop stopAt &&
      decide (batchOldestTimestamp evs ≤ stopValue stopAt)) = false) :
    syncLoop w targets stopAt (fuel + 1) fl cursor total idx =
      (syncLoop w targets stopAt fuel { fl with untilTs := some cursor }
          (batchOldestTimestamp evs - 1)
          (processEvents w targets stopAt cursor (keptSlice evs) total).total (idx + 1)).map
        (contGlue (processEvents w targets stopAt cursor (keptSlice evs) total)
          cursor (batchOldestTimestamp evs - 1) stopAt) := by
  simp only [syncLoop, hf, isEmpty_false_of_ne_nil hne, Bool.false_eq_true, if_false, hfind,
    hr, if_true, hstop]
  cases syncLoop w targets stopAt fuel { fl with untilTs := some cursor }
      (batchOldestTimestamp evs - 1)
      (processEvents w targets stopAt cursor (keptSlice evs) total).total (idx + 1) with
  | none => rfl
  | some o => rfl

/-
Structural lemmas about whole runs.
-/

lemma syncLoop_calls (w : SyncWorld) (targets : List String) (stopAt : Option Int) :
    ∀ (fuel : Nat) (fl : NDKFilter) (cursor : Int) (total idx : Nat) (out : RunOutput),
      syncLoop w targets stopAt fuel fl cursor total idx = some out →
      ∀ p ∈ out.pubs, PubCallSpec w targets stopAt p := by
  intro fuel
  induction fuel with
  | zero =>
    intro fl cursor total idx out h
    exact Option.noConfusion (show (none : Option RunOutput) = some out from h)
  | succ n ih =>
    intro fl cursor total idx out h p hp
    cases hf : w.fetch idx with
    | err msg =>
      rw [syncLoop_fetchErr hf] at h
      cases h
      simp at hp
    | ok evs =>
      by_cases hne : evs = []
      · subst hne
        rw [syncLoop_emptyBatch hf] at h
        cases h
        simp at hp
      · cases hfind : targets.find? (fun u => !(w.connected u)) with
        | some url =>
          rw [syncLoop_disconnected hf hne hfind] at h
          cases h
          simp at hp
        | none =>
          cases hr : (processEvents w targets stopAt cursor (keptSlice evs) total).ok with
          | false =>
            rw [syncLoop_abort hf hne hfind hr] at h
            cases h
            exact processEvents_calls w targets stopAt cursor _ _ p hp
          | true =>
            cases hstop : (truthyStop stopAt &&
                decide (batchOldestTimestamp evs ≤ stopValue stopAt)) with
            | true =>
              rw [syncLoop_stopComplete hf hne hfind hr hstop] at h
              cases h
              simp at hp
              exact processEvents_calls w targets stopAt cursor _ _ p hp
            | false =>
              rw [syncLoop_continue hf hne hfind hr hstop] at h
              cases hrec : syncLoop w targets stopAt n { fl with untilTs := some cursor }
                  (batchOldestTimestamp evs - 1)
                  (processEvents w targets stopAt cursor (keptSlice evs) total).total
                  (idx + 1) with
              | none =>
                rw [hrec] at h
                simp at h
              | some o =>
                rw [hrec] at h
                simp only [Option.map_some', Option.some.injEq] at h
                rw [← h] at hp
                simp only [contGlue, List.mem_append] at hp
                rcases hp with hp | hp
                · exact processEvents_calls w targets stopAt cursor _ _ p hp
                · exact ih _ _ _ _ o hrec p hp

lemma syncEvents_calls {w : SyncWorld} {targets : List String} {f : NDKFilter}
    {u0 : Int} {s : Option Int} {fuel : Nat} {out : RunOutput}
    (h : syncEvents w targets f u0 s fuel = some out) :
    ∀ p ∈ out.pubs, PubCallSpec w targets s p := by
  intro p hp
  unfold syncEvents at h
  by_cases ht : targets.isEmpty = true
  · rw [if_pos ht] at h
    cases h
    simp at hp
  · rw [if_neg ht] at h
    cases hrec : syncLoop w targets s fuel { f with limit := some batchSize } u0 0 0 with
    | none =>
      rw [hrec] at h
      exact absurd h (by simp)
    | some o =>
      rw [hrec] at h
      simp only [Option.map_some', Option.some.injEq] at h
      rw [← h] at hp
      exact syncLoop_calls w targets s fuel _ u0 0 0 o hrec p hp

lemma syncLoop_fetches_cons (w : SyncWorld) (targets : List String) (stopAt : Option Int) :
    ∀ (fuel : Nat) (fl : NDKFilter) (cursor : Int) (total idx : Nat) (out : RunOutput),
      syncLoop w targets stopAt fuel fl cursor total idx = some out →
      ∃ t, out.fetches = cursor :: t := by
  intro fuel
  induction fuel with
  | zero =>
    intro fl cursor total idx out h
    exact Option.noConfusion (show (none : Option RunOutput) = some out from h)
  | succ n _ =>
    intro fl cursor total idx out h
    cases hf : w.fetch idx with
    | err msg =>
      rw [syncLoop_fetchErr hf] at h
      cases h
      exact ⟨[], rfl⟩
    | ok evs =>
      by_cases hne : evs = []
      · subst hne
        rw [syncLoop_emptyBatch hf] at h
        cases h
        exact ⟨[], rfl⟩
      · cases hfind : targets.find? (fun u => !(w.connected u)) with
        | some url =>
          rw [syncLoop_disconnected hf hne hfind] at h
          cases h
          exact ⟨[], rfl⟩
        | none =>
          cases hr : (processEvents w targets stopAt cursor (keptSlice evs) total).ok with
          | false =>
            rw [syncLoop_abort hf hne hfind hr] at h
            cases h
            exact ⟨[], rfl⟩
          | true =>
            cases hstop : (truthyStop stopAt &&
                decide (batchOldestTimestamp evs ≤ stopValue stopAt)) with
            | true =>
              rw [syncLoop_stopComplete hf hne hfind hr hstop] at h
              cases h
              exact ⟨[], rfl⟩
            | false =>
              rw [syncLoop_continue hf hne hfind hr hstop] at h
              cases hrec : syncLoop w targets stopAt n { fl with untilTs := some cursor }
                  (batchOldestTimestamp evs - 1)
                  (processEvents w targets stopAt cursor (keptSlice evs) total).total
                  (idx + 1) with
              | none =>
                rw [hrec] at h
                simp at h
              | some o =>
                rw [hrec] at h
                simp only [Option.map_some', Option.some.injEq] at h
                rw [← h]
                exact ⟨o.fetches, rfl⟩

lemma syncLoop_success_reason (w : SyncWorld) (targets : List String) (stopAt : Option Int) :
    ∀ (fuel : Nat) (fl : NDKFilter) (cursor : Int) (total idx : Nat) (out : RunOutput),
      syncLoop w targets stopAt fuel fl cursor total idx = some out →
      out.success = true →
      ∃ evs, w.fetch (idx + (out.fetches.length - 1)) = FetchResult.ok evs ∧
        (evs = [] ∨ (truthyStop stopAt &&
          decide (batchOldestTimestamp evs ≤ stopValue stopAt)) = true) := by
  intro fuel
  induction fuel with
  | zero =>
    intro fl cursor total idx out h
    exact Option.noConfusion (show (none : Option RunOutput) = some out from h)
  | succ n ih =>
    intro fl cursor total idx out h hsucc
    cases hf : w.fetch idx with
    | err msg =>
      rw [syncLoop_fetchErr hf] at h
      cases h
      simp at hsucc
    | ok evs =>
      by_cases hne : evs = []
      · subst hne
        rw [syncLoop_emptyBatch hf] at h
        cases h
        exact ⟨[], by simpa using hf, Or.inl rfl⟩
      · cases hfind : targets.find? (fun u => !(w.connected u)) with
        | some url =>
          rw [syncLoop_disconnected hf hne hfind] at h
          cases h
          simp at hsucc
        | none =>
          cases hr : (processEvents w targets stopAt cursor (keptSlice evs) total).ok with
          | false =>
            rw [syncLoop_abort hf hne hfind hr] at h
            cases h
            simp at hsucc
          | true =>
            cases hstop : (truthyStop stopAt &&
                decide (batchOldestTimestamp evs ≤ stopValue stopAt)) with
            | true =>
              rw [syncLoop_stopComplete hf hne hfind hr hstop] at h
              cases h
              exact ⟨evs, by simpa using hf, Or.inr hstop⟩
            | false =>
              rw [syncLoop_continue hf hne hfind hr hstop] at h
              cases hrec : syncLoop w targets stopAt n { fl with untilTs := some cursor }
                  (batchOldestTimestamp evs - 1)
                  (processEvents w targets stopAt cursor (keptSlice evs) total).total
                  (idx + 1) with
              | none =>
                rw [hrec] at h
                simp at h
              | some o =>
                rw [hrec] at h
                simp only [Option.map_some', Option.some.injEq] at h
                rw [← h] at hsucc
                simp only [contGlue] at hsucc
                rcases ih _ _ _ _ o hrec hsucc with ⟨evs2, hfx, hor⟩
                refine ⟨evs2, ?_, hor⟩
                rcases syncLoop_fetches_cons w targets stopAt n _ _ _ _ o hrec with ⟨t, hfs⟩
                rw [← h]
                simp only [contGlue, List.length_cons]
                rw [hfs] at hfx ⊢
                simp only [List.length_cons] at hfx ⊢
                have harith : idx + (t.length + 1 + 1 - 1) = idx + 1 + (t.length + 1 - 1) := by
                  omega
                rw [harith]
                exact hfx

lemma syncLoop_filter_spec (w : SyncWorld) (targets : List String) (stopAt : Option Int) :
    ∀ (fuel : Nat) (fl : NDKFilter) (cursor : Int) (total idx : Nat) (out : RunOutput),
      syncLoop w targets stopAt fuel fl cursor total idx = some out →
      ∃ u, out.fetches.head? = some cursor ∧ out.fetches.getLast? = some u ∧
        out.finalFilter = { fl with untilTs := some u } := by
  intro fuel
  induction fuel with
  | zero =>
    intro fl cursor total idx out h
    exact Option.noConfusion (show (none : Option RunOutput) = some out from h)
  | succ n ih =>
    intro fl cursor total idx out h
    cases hf : w.fetch idx with
    | err msg =>
      rw [syncLoop_fetchErr hf] at h
      cases h
      exact ⟨cursor, rfl, rfl, rfl⟩
    | ok evs =>
      by_cases hne : evs = []
      · subst hne
        rw [syncLoop_emptyBatch hf] at h
        cases h
        exact ⟨cursor, rfl, rfl, rfl⟩
      · cases hfind : targets.find? (fun u => !(w.connected u)) with
        | some url =>
          rw [syncLoop_disconnected hf hne hfind] at h
          cases h
          exact ⟨cursor, rfl, rfl, rfl⟩
        | none =>
          cases hr : (processEvents w targets stopAt cursor (keptSlice evs) total).ok with
          | false =>
            rw [syncLoop_abort hf hne hfind hr] at h
            cases h
            exact ⟨cursor, rfl, rfl, rfl⟩
          | true =>
            cases hstop : (truthyStop stopAt &&
                decide (batchOldestTimestamp evs ≤ stopValue stopAt)) with
            | true =>
              rw [syncLoop_stopComplete hf hne hfind hr hstop] at h
              cases h
              exact ⟨cursor, rfl, rfl, rfl⟩
            | false =>
              rw [syncLoop_continue hf hne hfind hr hstop] at h
              cases hrec : syncLoop w targets stopAt n { fl with untilTs := some cursor }
                  (batchOldestTimestamp evs - 1)
                  (processEvents w targets stopAt cursor (keptSlice evs) total).total
                  (idx + 1) with
              | none =>
                rw [hrec] at h
                simp at h
              | some o =>
                rw [hrec] at h
                simp only [Option.map_some', Option.some.injEq] at h
                rcases ih _ _ _ _ o hrec with ⟨u, hhead, hlast, hfil⟩
                rcases syncLoop_fetches_cons w targets stopAt n _ _ _ _ o hrec with ⟨t, hfs⟩
                refine ⟨u, ?_, ?_, ?_⟩
                · rw [← h]
                  rfl
                · rw [← h]
                  simp only [contGlue]
                  rw [hfs] at hlast ⊢
                  rw [List.getLast?_cons_cons]
                  exact hlast
                · rw [← h]
                  simp only [contGlue]
                  rw [hfil]

/-
A stop timestamp of exactly 0 steers the engine like an absent one.
-/

lemma processEvents_zero_stop (w : SyncWorld) (targets : List String) (cursor : Int) :
    ∀ (evs : List NostrEvent) (total : Nat),
      processEvents w targets (some 0) cursor evs total =
        processEvents w targets none cursor evs total := by
  intro evs
  induction evs with
  | nil => intro total; rfl
  | cons e rest ih =>
    intro total
    have hts : truthyStop (some 0) = truthyStop none := rfl
    have hsv : stopValue (some 0) = stopValue none := rfl
    simp only [processEvents, hts, hsv, ih]

lemma scrub_glue (r : InnerOut) (cursor cursor2 : Int) (s : Option Int) (o : RunOutput) :
    scrubRun (contGlue r cursor cursor2 s o) =
      ⟨o.success,
        fetchingBatchRecord cursor none :: r.records.map scrubProgress ++
          batchCompleteRecord cursor2 :: o.progress.map scrubProgress,
        r.calls ++ o.pubs, cursor :: o.fetches, o.finalFilter, o.total⟩ := by
  simp [scrubRun, contGlue, scrubProgress, fetchingBatchRecord, batchCompleteRecord]

lemma syncLoop_zero_stop (w : SyncWorld) (targets : List String) :
    ∀ (fuel : Nat) (fl : NDKFilter) (cursor : Int) (total idx : Nat),
      (syncLoop w targets (some 0) fuel fl cursor total idx).map scrubRun =
        (syncLoop w targets none fuel fl cursor total idx).map scrubRun := by
  intro fuel
  induction fuel with
  | zero => intro fl cursor total idx; rfl
  | succ n ih =>
    intro fl cursor total idx
    cases hf : w.fetch idx with
    | err msg =>
      rw [syncLoop_fetchErr hf, syncLoop_fetchErr hf]
      simp [scrubRun, scrubProgress, fetchingBatchRecord, fetchErrorRecord]
    | ok evs =>
      by_cases hne : evs = []
      · subst hne
        rw [syncLoop_emptyBatch hf, syncLoop_emptyBatch hf]
        simp [scrubRun, scrubProgress, fetchingBatchRecord, completeNoMoreRecord]
      · cases hfind : targets.find? (fun u => !(w.connected u)) with
        | some url =>
          rw [syncLoop_disconnected hf hne hfind, syncLoop_disconnected hf hne hfind]
          simp [scrubRun, scrubProgress, fetchingBatchRecord, disconnectedRecord]
        | none =>
          have hproc := processEvents_zero_stop w targets cursor (keptSlice evs) total
          cases hr : (processEvents w targets none cursor (keptSlice evs) total).ok with
          | false =>
            have hr0 : (processEvents w targets (some 0) cursor (keptSlice evs) total).ok =
                false := by rw [hproc]; exact hr
            rw [syncLoop_abort hf hne hfind hr0, syncLoop_abort hf hne hfind hr]
            rw [hproc]
            simp [scrubRun, scrubProgress, fetchingBatchRecord]
          | true =>
            have hr0 : (processEvents w targets (some 0) cursor (keptSlice evs) total).ok =
                true := by rw [hproc]; exact hr
            have hstop0 : (truthyStop (some 0) &&
                decide (batchOldestTimestamp evs ≤ stopValue (some 0))) = false := rfl
            have hstopN : (truthyStop none &&
                decide (batchOldestTimestamp evs ≤ stopValue none)) = false := rfl
            rw [syncLoop_continue hf hne hfind hr0 hstop0,
              syncLoop_continue hf hne hfind hr hstopN]
            rw [hproc]
            have hrec := ih { fl with untilTs := some cursor } (batchOldestTimestamp evs - 1)
              (processEvents w targets none cursor (keptSlice evs) total).total (idx + 1)
            cases h1 : syncLoop w targets (some 0) n { fl with untilTs := some cursor }
                (batchOldestTimestamp evs - 1)
                (processEvents w targets none cursor (keptSlice evs) total).total
                (idx + 1) with
            | none =>
              cases h2 : syncLoop w targets none n { fl with untilTs := some cursor }
                  (batchOldestTimestamp evs - 1)
                  (processEvents w targets none cursor (keptSlice evs) total).total
                  (idx + 1) with
              | none => rfl
              | some o2 =>
                rw [h1, h2] at hrec
                simp at hrec
            | some o1 =>
              cases h2 : syncLoop w targets none n { fl with untilTs := some cursor }
                  (batchOldestTimestamp evs - 1)
                  (processEvents w targets none cursor (keptSlice evs) total).total
                  (idx + 1) with
              | none =>
                rw [h1, h2] at hrec
                simp at hrec
              | some o2 =>
                rw [h1, h2] at hrec
                simp only [Option.map_some', Option.some.injEq] at hrec
                simp only [Option.map_some', Option.some.injEq]
                rw [scrub_glue, scrub_glue]
                cases o1 with
                | mk s1 pr1 pu1 fe1 fi1 t1 =>
                  cases o2 with
                  | mk s2 pr2 pu2 fe2 fi2 t2 =>
                    simp only [scrubRun, RunOutput.mk.injEq] at hrec
                    rcases hrec with ⟨e1, e2, e3, e4, e5, e6⟩
                    simp only [RunOutput.mk.injEq]
                    exact ⟨e1, by rw [e2], by rw [e3], by rw [e4], e5, e6⟩

/-
Claim theorems.
-/

/-- C1, counterexample: with two per-relay reasons of which only one
contains "deletion" (the other is "rate-limited"), the engine does not
transition to Failed as the claim requires: it continues past the event and
the run completes with no error record and no counter increment. -/
theorem c1_deletion_check_counterexample :
    (syncEvents wDeletionMix ["wss://a/", "wss://b/"] cxFilter 200 none 3).map
        (fun o => (o.success, o.total, o.pubs.length,
          o.progress.map SyncProgress.status)) =
      some (true, 0, 1, [SyncStatus.fetching_batch, SyncStatus.fetching_batch,
        SyncStatus.syncing_event, SyncStatus.batch_complete,
        SyncStatus.fetching_batch, SyncStatus.complete]) ∧
    strIncludes "rate-limited" "deletion" = false := by
  constructor
  · decide
  · decide

/-- C1, amended: on an `NDKPublishError` the engine builds one joined
failure-info string from all per-relay entries and continues (without
incrementing the counter) exactly when that whole string contains the
substring "deletion" anywhere — one matching entry suffices; otherwise it
stops: the batch loop returns a failure record carrying the current event
id and the preserved cursor, and the run ends with `false`. -/
theorem c1_deletion_check_amended {w : SyncWorld} {targets : List String}
    {stopAt : Option Int} {cursor : Int} {e : NostrEvent} {rest : List NostrEvent}
    {total : Nat} {errs : List (String × String)}
    (hg : (truthyStop stopAt && decide (e.created_at < stopValue stopAt)) = false)
    (hne : missingRelays w targets e.id ≠ [])
    (hpub : w.publish e.id = PublishOutcome.ndkError errs) :
    (strIncludes (publishErrorInfo errs) "deletion" = true →
      processEvents w targets stopAt cursor (e :: rest) total =
        ⟨(processEvents w targets stopAt cursor rest total).ok,
         (processEvents w targets stopAt cursor rest total).total,
         syncingEventRecord cursor e.id ::
           (processEvents w targets stopAt cursor rest total).records,
         (⟨e.id, e.created_at, missingRelays w targets e.id⟩ : PublishCall) ::
           (processEvents w targets stopAt cursor rest total).calls⟩) ∧
    (strIncludes (publishErrorInfo errs) "deletion" = false →
      processEvents w targets stopAt cursor (e :: rest) total =
        ⟨false, total,
         [syncingEventRecord cursor e.id,
          publishErrorRecord cursor e.id (publishErrorInfo errs)],
         [⟨e.id, e.created_at, missingRelays w targets e.id⟩]⟩) ∧
    (∀ (fuel : Nat) (fl : NDKFilter) (total2 idx : Nat) (evs : List NostrEvent)
       (cursor2 : Int),
      w.fetch idx = FetchResult.ok evs → evs ≠ [] →
      targets.find? (fun u => !(w.connected u)) = none →
      (processEvents w targets stopAt cursor2 (keptSlice evs) total2).ok = false →
      syncLoop w targets stopAt (fuel + 1) fl cursor2 total2 idx =
        some ⟨false,
          fetchingBatchRecord cursor2 stopAt ::
            (processEvents w targets stopAt cursor2 (keptSlice evs) total2).records,
          (processEvents w targets stopAt cursor2 (keptSlice evs) total2).calls,
          [cursor2], { fl with untilTs := some cursor2 },
          (processEvents w targets stopAt cursor2 (keptSlice evs) total2).total⟩) := by
  have hemp : (missingRelays w targets e.id).isEmpty = false :=
    isEmpty_false_of_ne_nil hne
  refine ⟨?_, ?_, ?_⟩
  · intro hdel
    simp only [processEvents, hg, Bool.false_eq_true, if_false, hemp, hpub, hdel, if_true]
  · intro hdel
    simp only [processEvents, hg, Bool.false_eq_true, if_false, hemp, hpub, hdel]
  · intro fuel fl total2 idx evs cursor2 hf hne2 hfind hr
    exact syncLoop_abort hf hne2 hfind hr

/-- C1, witness: the amended theorem applied to the mixed-reason world of
the counterexample (deletion branch) and to a pure "rate-limited" failure
(fatal branch and loop-level abort). -/
theorem c1_deletion_check_witness :
    processEvents wDeletionMix ["wss://a/", "wss://b/"] none 200 [⟨"e1", 100⟩] 0 =
      ⟨true, 0, [syncingEventRecord 200 "e1"],
        [⟨"e1", 100, ["wss://a/", "wss://b/"]⟩]⟩ ∧
    processEvents wFatal ["wss://a/"] none 200 [⟨"e1", 100⟩] 0 =
      ⟨false, 0,
        [syncingEventRecord 200 "e1",
         publishErrorRecord 200 "e1" "Failed relays (1): wss://b/: rate-limited"],
        [⟨"e1", 100, ["wss://a/"]⟩]⟩ ∧
    syncLoop wFatal ["wss://a/"] none 1 cxFilter 200 0 0 =
      some ⟨false,
        [fetchingBatchRecord 200 none, syncingEventRecord 200 "e1",
         publishErrorRecord 200 "e1" "Failed relays (1): wss://b/: rate-limited"],
        [⟨"e1", 100, ["wss://a/"]⟩], [200],
        { cxFilter with untilTs := some 200 }, 0⟩ := by
  refine ⟨?_, ?_, ?_⟩
  · exact ((@c1_deletion_check_amended wDeletionMix ["wss://a/", "wss://b/"] none 200
      ⟨"e1", 100⟩ [] 0
      [("wss://a/", "deletion: user requested"), ("wss://b/", "rate-limited")]
      (by decide) (by decide) (by decide)).1 (by decide)).trans (by decide)
  · exact ((@c1_deletion_check_amended wFatal ["wss://a/"] none 200
      ⟨"e1", 100⟩ [] 0 [("wss://b/", "rate-limited")]
      (by decide) (by decide) (by decide)).2.1 (by decide)).trans (by decide)
  · exact ((@c1_deletion_check_amended wFatal ["wss://a/"] none 200
      ⟨"e1", 100⟩ [] 0 [("wss://b/", "rate-limited")]
      (by decide) (by decide) (by decide)).2.2 0 cxFilter 0 0 [⟨"e1", 100⟩] 200
      (by decide) (by decide) (by decide) (by decide)).trans (by decide)

/-- C2: a batch that is processed and does not end the run recurses with
the cursor advanced to the oldest created_at of the kept (sorted
newest-first, sliced to 20) slice minus one; that timestamp belongs to a
fetched event and is minimal in the kept slice, and when every fetched
event lies at or below the batch's `until` value the new cursor is strictly
below the old one. -/
theorem c2_cursor_advance {w : SyncWorld} {targets : List String}
    {stopAt : Option Int} {fuel : Nat} {fl : NDKFilter} {cursor : Int}
    {total idx : Nat} {evs : List NostrEvent}
    (hf : w.fetch idx = FetchResult.ok evs) (hne : evs ≠ [])
    (hfind : targets.find? (fun u => !(w.connected u)) = none)
    (hr : (processEvents w targets stopAt cursor (keptSlice evs) total).ok = true)
    (hstop : (truthyStop stopAt &&
      decide (batchOldestTimestamp evs ≤ stopValue stopAt)) = false) :
    syncLoop w targets stopAt (fuel + 1) fl cursor total idx =
      (syncLoop w targets stopAt fuel { fl with untilTs := some cursor }
          (batchOldestTimestamp evs - 1)
          (processEvents w targets stopAt cursor (keptSlice evs) total).total
          (idx + 1)).map
        (contGlue (processEvents w targets stopAt cursor (keptSlice evs) total)
          cursor (batchOldestTimestamp evs - 1) stopAt) ∧
    (∃ e, (keptSlice evs).getLast? = some e ∧ e ∈ evs ∧
      batchOldestTimestamp evs = e.created_at ∧
      ∀ x ∈ keptSlice evs, batchOldestTimestamp evs ≤ x.created_at) ∧
    ((∀ x ∈ evs, x.created_at ≤ cursor) → batchOldestTimestamp evs - 1 < cursor) := by
  refine ⟨syncLoop_continue hf hne hfind hr hstop, ?_, ?_⟩
  · rcases batchOldest_spec hne with ⟨e, h1, h2, h3⟩
    exact ⟨e, h1, h2, h3, fun x hx => batchOldest_min hx⟩
  · intro hall
    rcases batchOldest_spec hne with ⟨e, h1, h2, h3⟩
    have h4 := hall e h2
    omega

/-- C2, witness: the cursor-advance theorem at a concrete one-event batch:
the strict decrease 99 < 200 follows. -/
theorem c2_cursor_advance_witness :
    batchOldestTimestamp [(⟨"e1", 100⟩ : NostrEvent)] - 1 < 200 :=
  (@c2_cursor_advance wSimple ["wss://a/"] none 1 cxFilter 200 0 0 [⟨"e1", 100⟩]
    (by decide) (by decide) (by decide) (by decide) (by decide)).2.2 (by decide)

/-- C3: in any run, every publish call targets only relays that are in the
target URL set and absent from the seen-on snapshot of the event's id; and
when the missing set of an event is empty, the per-event loop makes no
publish call for it and increments the counter. -/
theorem c3_missing_set_publish {w : SyncWorld} {targets : List String}
    {f : NDKFilter} {u0 : Int} {s : Option Int} {fuel : Nat} {out : RunOutput}
    (h : syncEvents w targets f u0 s fuel = some out) :
    (∀ p ∈ out.pubs, ∀ r ∈ p.relays, r ∈ targets ∧ r ∉ seenUrls w p.eventId) ∧
    (∀ (e : NostrEvent) (rest : List NostrEvent) (cursor : Int) (total : Nat),
      missingRelays w targets e.id = [] →
      (truthyStop s && decide (e.created_at < stopValue s)) = false →
      processEvents w targets s cursor (e :: rest) total =
        ⟨(processEvents w targets s cursor rest (total + 1)).ok,
         (processEvents w targets s cursor rest (total + 1)).total,
         syncingEventRecord cursor e.id ::
           (processEvents w targets s cursor rest (total + 1)).records,
         (processEvents w targets s cursor rest (total + 1)).calls⟩) := by
  constructor
  · intro p hp r hr
    rcases syncEvents_calls h p hp with ⟨hrel, _, _⟩
    rw [hrel] at hr
    unfold missingRelays at hr
    rcases List.mem_filter.mp hr with ⟨hmem, hflt⟩
    refine ⟨hmem, ?_⟩
    intro hseen
    have : (seenUrls w p.eventId).contains r = true := by
      simpa using hseen
    rw [this] at hflt
    exact absurd hflt (by decide)
  · intro e rest cursor total hmiss hg
    have hemp : (missingRelays w targets e.id).isEmpty = true := by
      rw [hmiss]
      rfl
    simp only [processEvents, hg, Bool.false_eq_true, if_false, hemp, if_true]

/-- C3, witness: a run that publishes to the one target not in the seen-on
set, and a per-event step whose missing set is empty (the event is seen on
the only target) incrementing the counter without a call. -/
theorem c3_missing_set_publish_witness :
    ("wss://a/" ∈ ["wss://a/"] ∧ "wss://a/" ∉ seenUrls wPub "e1") ∧
    processEvents wSimple ["wss://a/"] none 200 [⟨"e1", 100⟩] 0 =
      ⟨true, 1, [syncingEventRecord 200 "e1"], []⟩ := by
  constructor
  · exact (c3_missing_set_publish (by decide : syncEvents wPub ["wss://a/"] cxFilter
      200 none 2 = some outPub)).1 ⟨"e1", 100, ["wss://a/"]⟩ (by decide)
      "wss://a/" (by decide)
  · exact ((c3_missing_set_publish (by decide : syncEvents wSimple ["wss://a/"] cxFilter
      200 none 2 = some outSimple)).2 ⟨"e1", 100⟩ [] 200 0
      (by decide) (by decide)).trans (by decide)

/-- C4: a nonempty batch of fewer than 20 events does not terminate the
run — under the conditions of a normally processed batch the engine
recurses into the next batch fetch; and a run can return success only when
its final batch fetch came back empty or the stop-at cutoff was reached by
the batch's oldest timestamp. -/
theorem c4_partial_batch {w : SyncWorld} {targets : List String}
    {stopAt : Option Int} :
    (∀ (fuel : Nat) (fl : NDKFilter) (cursor : Int) (total idx : Nat)
       (evs : List NostrEvent),
      w.fetch idx = FetchResult.ok evs → evs ≠ [] → evs.length < batchSize →
      targets.find? (fun u => !(w.connected u)) = none →
      (processEvents w targets stopAt cursor (keptSlice evs) total).ok = true →
      (truthyStop stopAt &&
        decide (batchOldestTimestamp evs ≤ stopValue stopAt)) = false →
      syncLoop w targets stopAt (fuel + 1) fl cursor total idx =
        (syncLoop w targets stopAt fuel { fl with untilTs := some cursor }
            (batchOldestTimestamp evs - 1)
            (processEvents w targets stopAt cursor (keptSlice evs) total).total
            (idx + 1)).map
          (contGlue (processEvents w targets stopAt cursor (keptSlice evs) total)
            cursor (batchOldestTimestamp evs - 1) stopAt)) ∧
    (∀ (f : NDKFilter) (u0 : Int) (fuel : Nat) (out : RunOutput),
      syncEvents w targets f u0 stopAt fuel = some out → out.success = true →
      ∃ evs, w.fetch (out.fetches.length - 1) = FetchResult.ok evs ∧
        (evs = [] ∨ (truthyStop stopAt &&
          decide (batchOldestTimestamp evs ≤ stopValue stopAt)) = true)) := by
  constructor
  · intro fuel fl cursor total idx evs hf hne _ hfind hr hstop
    exact syncLoop_continue hf hne hfind hr hstop
  · intro f u0 fuel out h hsucc
    unfold syncEvents at h
    by_cases ht : targets.isEmpty = true
    · rw [if_pos ht] at h
      cases h
      simp at hsucc
    · rw [if_neg ht] at h
      cases hrec : syncLoop w targets stopAt fuel { f with limit := some batchSize }
          u0 0 0 with
      | none =>
        rw [hrec] at h
        exact absurd h (by simp)
      | some o =>
        rw [hrec] at h
        simp only [Option.map_some', Option.some.injEq] at h
        have hs2 : o.success = true := by
          rw [← h] at hsucc
          exact hsucc
        have := syncLoop_success_reason w targets stopAt fuel _ u0 0 0 o hrec hs2
        rw [← h]
        simpa using this

/-- C4, witness: a one-event (hence partial) batch recurses into a second
fetch, and the empty-batch completion of `wEmptyDisc` is licensed by its
final fetch returning zero events. -/
theorem c4_partial_batch_witness :
    syncLoop wSimple ["wss://a/"] none 2 cxFilter 200 0 0 =
      (syncLoop wSimple ["wss://a/"] none 1 { cxFilter with untilTs := some 200 }
          (batchOldestTimestamp [(⟨"e1", 100⟩ : NostrEvent)] - 1)
          (processEvents wSimple ["wss://a/"] none 200
            (keptSlice [⟨"e1", 100⟩]) 0).total 1).map
        (contGlue (processEvents wSimple ["wss://a/"] none 200
            (keptSlice [⟨"e1", 100⟩]) 0)
          200 (batchOldestTimestamp [(⟨"e1", 100⟩ : NostrEvent)] - 1) none) ∧
    ∃ evs, wEmptyDisc.fetch (outEmpty.fetches.length - 1) = FetchResult.ok evs ∧
      (evs = [] ∨ (truthyStop none &&
        decide (batchOldestTimestamp evs ≤ stopValue none)) = true) := by
  constructor
  · exact (@c4_partial_batch wSimple ["wss://a/"] none).1 1 cxFilter 200 0 0
      [⟨"e1", 100⟩] (by decide) (by decide) (by decide) (by decide) (by decide)
      (by decide)
  · exact (@c4_partial_batch wEmptyDisc ["wss://a/"] none).2 cxFilter 50 1 outEmpty
      (by decide) (by decide)

/-- C5: the internal subscription timeout is the 15 s wall-clock budget
minus 3 s, i.e. 12 s; when it fires first the batch-fetch promise attempts
a cooperative close and rejects with the fetch-timeout error; and a batch
fetch that fails makes the engine stop with an error record that carries
the failure message and the preserved cursor, returning failure. -/
theorem c5_fetch_timeout :
    internalFetchTimeoutMs = 12000 ∧ batchFetchTimeoutMs = 15000 ∧
    (∀ events : List NostrEvent,
      (runBatchFetch events FetchRace.timeoutFirst).outcome =
        Except.error "Batch fetch timed out after 12000ms" ∧
      (runBatchFetch events FetchRace.timeoutFirst).closeAttempted = true) ∧
    (∀ (w : SyncWorld) (targets : List String) (stopAt : Option Int)
       (fuel : Nat) (fl : NDKFilter) (cursor : Int) (total idx : Nat)
       (msg : String),
      w.fetch idx = FetchResult.err msg →
      syncLoop w targets stopAt (fuel + 1) fl cursor total idx =
        some ⟨false, [fetchingBatchRecord cursor stopAt,
          fetchErrorRecord cursor stopAt msg], [], [cursor],
          { fl with untilTs := some cursor }, total⟩) := by
  refine ⟨by decide, by decide, ?_, ?_⟩
  · intro events
    have hs : "Batch fetch timed out after " ++ toString internalFetchTimeoutMs ++ "ms" =
        "Batch fetch timed out after 12000ms" := by decide
    exact ⟨by rw [← hs]; rfl, rfl⟩
  · intro w targets stopAt fuel fl cursor total idx msg hf
    exact syncLoop_fetchErr hf

/-- C5, witness: the timeout branch at a concrete empty accumulation, and a
failing fetch in `wErr` stopping the run with the cursor preserved. -/
theorem c5_fetch_timeout_witness :
    (runBatchFetch [] FetchRace.timeoutFirst).outcome =
      Except.error "Batch fetch timed out after 12000ms" ∧
    syncLoop wErr ["wss://a/"] none 1 cxFilter 77 0 0 =
      some ⟨false, [fetchingBatchRecord 77 none,
        fetchErrorRecord 77 none "Batch fetch timed out after 12000ms"], [], [77],
        { cxFilter with untilTs := some 77 }, 0⟩ := by
  constructor
  · exact (c5_fetch_timeout.2.2.1 []).1
  · exact c5_fetch_timeout.2.2.2 wErr ["wss://a/"] none 0 cxFilter 77 0 0
      "Batch fetch timed out after 12000ms" (by decide)

/-- C6, counterexample: with stop-at 101 strictly above initial-until 100,
the engine still performs one batch fetch (its cursor trace has length one)
before returning Complete, against the claim of completing with no fetch. -/
theorem c6_stop_after_initial_counterexample :
    (syncEvents wEmptyDisc ["wss://a/"] cxFilter 100 (some 101) 2).map
        (fun o => (o.success, o.fetches)) = some (true, [100]) ∧
    (100 : Int) < 101 := by
  constructor
  · decide
  · decide

/-- C6, amended: when stop-at exceeds a nonnegative initial-until, a run
whose first fetch succeeds with events no newer than initial-until and whose
targets are connected performs exactly one batch fetch, publishes nothing,
and returns Complete. -/
theorem c6_stop_after_initial_amended {w : SyncWorld} {targets : List String}
    {f : NDKFilter} {u0 sv : Int} {evs : List NostrEvent} {fuel : Nat}
    (ht : targets ≠ []) (h0 : 0 ≤ u0) (hgt : u0 < sv)
    (hf : w.fetch 0 = FetchResult.ok evs)
    (hle : ∀ x ∈ evs, x.created_at ≤ u0)
    (hconn : targets.find? (fun u => !(w.connected u)) = none) :
    ∃ out, syncEvents w targets f u0 (some sv) (fuel + 1) = some out ∧
      out.success = true ∧ out.fetches = [u0] ∧ out.pubs = [] ∧ out.total = 0 ∧
      ∃ rec, out.progress.getLast? = some rec ∧
        rec.status = SyncStatus.complete := by
  have ht2 : targets.isEmpty = false := isEmpty_false_of_ne_nil ht
  simp only [syncEvents, ht2, Bool.false_eq_true, if_false]
  by_cases hne : evs = []
  · subst hne
    rw [syncLoop_emptyBatch hf]
    simp only [Option.map_some', Option.some.injEq]
    refine ⟨_, rfl, rfl, rfl, rfl, rfl,
      completeNoMoreRecord u0 (some sv), ?_, rfl⟩
    rfl
  · rcases List.exists_cons_of_ne_nil (keptSlice_ne_nil hne) with ⟨e0, rest0, hks⟩
    have he0 : e0 ∈ evs := mem_of_mem_keptSlice (hks ▸ List.mem_cons_self e0 rest0)
    have hlt : e0.created_at < sv := lt_of_le_of_lt (hle e0 he0) hgt
    have hsv : sv ≠ 0 := by omega
    have htr : truthyStop (some sv) = true := by simp [truthyStop, hsv]
    have hguard : (truthyStop (some sv) &&
        decide (e0.created_at < stopValue (some sv))) = true := by
      rw [htr]
      simp [stopValue, hlt]
    have hr : processEvents w targets (some sv) u0 (keptSlice evs) 0 =
        ⟨true, 0, [], []⟩ := by
      rw [hks]
      simp only [processEvents, hguard, if_true]
    rcases batchOldest_spec hne with ⟨e, hel, hem, heq⟩
    have hold : batchOldestTimestamp evs ≤ sv := by
      have := hle e hem
      omega
    have hstop : (truthyStop (some sv) &&
        decide (batchOldestTimestamp evs ≤ stopValue (some sv))) = true := by
      rw [htr]
      simp [stopValue, hold]
    rw [syncLoop_stopComplete hf hne hconn (by rw [hr]) hstop, hr]
    simp only [Option.map_some', Option.some.injEq]
    refine ⟨_, rfl, rfl, rfl, rfl, rfl,
      completeStopRecord (batchOldestTimestamp evs - 1) (some sv), ?_, rfl⟩
    rfl

/-- C6, witness: the amended theorem at a world whose first batch holds one
event at timestamp 100, with initial-until 100 and stop-at 101. -/
theorem c6_stop_after_initial_witness :
    ∃ out, syncEvents wSimple ["wss://a/"] cxFilter 100 (some 101) 3 = some out ∧
      out.success = true ∧ out.fetches = [100] ∧ out.pubs = [] ∧ out.total = 0 ∧
      ∃ rec, out.progress.getLast? = some rec ∧
        rec.status = SyncStatus.complete :=
  @c6_stop_after_initial_amended wSimple ["wss://a/"] cxFilter 100 101
    [⟨"e1", 100⟩] 2 (by decide) (by decide) (by decide) (by decide) (by decide)
    (by decide)

/-- C7: with a truthy stop timestamp, every publish call of any run
concerns an event at or above the stop timestamp; an event strictly below
it ends the per-event loop at once with nothing emitted; and a processed
batch whose oldest kept timestamp is at or below the stop timestamp
finishes the run as Complete. -/
theorem c7_stop_cutoff {w : SyncWorld} {targets : List String} {sv : Int}
    (hsv : sv ≠ 0) :
    (∀ (f : NDKFilter) (u0 : Int) (fuel : Nat) (out : RunOutput),
      syncEvents w targets f u0 (some sv) fuel = some out →
      ∀ p ∈ out.pubs, sv ≤ p.createdAt) ∧
    (∀ (e : NostrEvent) (rest : List NostrEvent) (cursor : Int) (total : Nat),
      e.created_at < sv →
      processEvents w targets (some sv) cursor (e :: rest) total =
        ⟨true, total, [], []⟩) ∧
    (∀ (fuel : Nat) (fl : NDKFilter) (cursor : Int) (total idx : Nat)
       (evs : List NostrEvent),
      w.fetch idx = FetchResult.ok evs → evs ≠ [] →
      targets.find? (fun u => !(w.connected u)) = none →
      (processEvents w targets (some sv) cursor (keptSlice evs) total).ok = true →
      batchOldestTimestamp evs ≤ sv →
      syncLoop w targets (some sv) (fuel + 1) fl cursor total idx =
        some ⟨true,
          fetchingBatchRecord cursor (some sv) ::
            (processEvents w targets (some sv) cursor (keptSlice evs) total).records ++
              [completeStopRecord (batchOldestTimestamp evs - 1) (some sv)],
          (processEvents w targets (some sv) cursor (keptSlice evs) total).calls,
          [cursor], { fl with untilTs := some cursor },
          (processEvents w targets (some sv) cursor (keptSlice evs) total).total⟩) := by
  have htr : truthyStop (some sv) = true := by simp [truthyStop, hsv]
  refine ⟨?_, ?_, ?_⟩
  · intro f u0 fuel out h p hp
    rcases syncEvents_calls h p hp with ⟨_, _, hs⟩
    have := hs htr
    simpa [stopValue] using this
  · intro e rest cursor total hlt
    have hguard : (truthyStop (some sv) &&
        decide (e.created_at < stopValue (some sv))) = true := by
      rw [htr]
      simp [stopValue, hlt]
    simp only [processEvents, hguard, if_true]
  · intro fuel fl cursor total idx evs hf hne hfind hr hold
    have hstop : (truthyStop (some sv) &&
        decide (batchOldestTimestamp evs ≤ stopValue (some sv))) = true := by
      rw [htr]
      simp [stopValue, hold]
    exact syncLoop_stopComplete hf hne hfind hr hstop

/-- C7, witness: in the stop-at-30 world the published event has timestamp
50 ≥ 30, the timestamp-10 event ends the loop immediately, and the batch
finishes the run as Complete. -/
theorem c7_stop_cutoff_witness :
    (30 : Int) ≤ 50 ∧
    processEvents wStop ["wss://a/"] (some 30) 60 [⟨"old", 10⟩] 1 =
      ⟨true, 1, [], []⟩ ∧
    syncLoop wStop ["wss://a/"] (some 30) 1 cxFilter 60 0 0 =
      some ⟨true, [fetchingBatchRecord 60 (some 30), syncingEventRecord 60 "new",
        completeStopRecord 9 (some 30)], [⟨"new", 50, ["wss://a/"]⟩], [60],
        { cxFilter with untilTs := some 60 }, 1⟩ := by
  refine ⟨?_, ?_, ?_⟩
  · exact (@c7_stop_cutoff wStop ["wss://a/"] 30 (by decide)).1 cxFilter 60 1 outStop
      (by decide) ⟨"new", 50, ["wss://a/"]⟩ (by decide)
  · exact (@c7_stop_cutoff wStop ["wss://a/"] 30 (by decide)).2.1 ⟨"old", 10⟩ [] 60 1
      (by decide)
  · exact ((@c7_stop_cutoff wStop ["wss://a/"] 30 (by decide)).2.2 0 cxFilter 60 0 0
      [⟨"old", 10⟩, ⟨"new", 50⟩] (by decide) (by decide) (by decide) (by decide)
      (by decide)).trans (by decide)

/-- C8, counterexample: an empty batch completes the run even though the
sole target relay is disconnected, so the health check does not run before
the zero-events completion check as the claim states. -/
theorem c8_health_check_counterexample :
    (syncEvents wEmptyDisc ["wss://a/"] cxFilter 50 none 1).map
        (fun o => (o.success, o.progress.map SyncProgress.status)) =
      some (true, [SyncStatus.fetching_batch, SyncStatus.fetching_batch,
        SyncStatus.complete]) ∧
    wEmptyDisc.connected "wss://a/" = false := by
  constructor
  · decide
  · decide

/-- C8, amended: the connectivity check runs after the zero-events check
and the sort/slice: on a nonempty batch, a disconnected target relay fails
the run with `Unable to connect <url>` in the error details and the cursor
preserved, before any event of the batch is processed; an empty batch
completes regardless of connectivity. -/
theorem c8_health_check_amended {w : SyncWorld} {targets : List String}
    {stopAt : Option Int} :
    (∀ (fuel : Nat) (fl : NDKFilter) (cursor : Int) (total idx : Nat)
       (evs : List NostrEvent) (url : String),
      w.fetch idx = FetchResult.ok evs → evs ≠ [] →
      targets.find? (fun u => !(w.connected u)) = some url →
      syncLoop w targets stopAt (fuel + 1) fl cursor total idx =
        some ⟨false,
          [fetchingBatchRecord cursor stopAt, disconnectedRecord cursor url],
          [], [cursor], { fl with untilTs := some cursor }, total⟩ ∧
        url ∈ targets ∧ w.connected url = false) ∧
    (∀ (fuel : Nat) (fl : NDKFilter) (cursor : Int) (total idx : Nat),
      w.fetch idx = FetchResult.ok [] →
      syncLoop w targets stopAt (fuel + 1) fl cursor total idx =
        some ⟨true,
          [fetchingBatchRecord cursor stopAt, completeNoMoreRecord cursor stopAt],
          [], [cursor], { fl with untilTs := some cursor }, total⟩) := by
  constructor
  · intro fuel fl cursor total idx evs url hf hne hfind
    refine ⟨syncLoop_disconnected hf hne hfind, List.mem_of_find?_eq_some hfind, ?_⟩
    have := List.find?_some hfind
    simpa using this
  · intro fuel fl cursor total idx hf
    exact syncLoop_emptyBatch hf

/-- C8, witness: the amended theorem in a world whose first batch is
nonempty (run fails with the disconnect error) and whose second batch is
empty (run completes despite the disconnect). -/
theorem c8_health_check_witness :
    syncLoop wDiscNE ["wss://a/"] none 1 cxFilter 200 0 0 =
      some ⟨false,
        [fetchingBatchRecord 200 none, disconnectedRecord 200 "wss://a/"],
        [], [200], { cxFilter with untilTs := some 200 }, 0⟩ ∧
    wDiscNE.connected "wss://a/" = false ∧
    syncLoop wDiscNE ["wss://a/"] none 1 cxFilter 99 0 1 =
      some ⟨true,
        [fetchingBatchRecord 99 none, completeNoMoreRecord 99 none],
        [], [99], { cxFilter with untilTs := some 99 }, 0⟩ := by
  refine ⟨?_, ?_, ?_⟩
  · exact ((@c8_health_check_amended wDiscNE ["wss://a/"] none).1 0 cxFilter 200 0 0
      [⟨"e1", 100⟩] "wss://a/" (by decide) (by decide) (by decide)).1
  · exact ((@c8_health_check_amended wDiscNE ["wss://a/"] none).1 0 cxFilter 200 0 0
      [⟨"e1", 100⟩] "wss://a/" (by decide) (by decide) (by decide)).2.2
  · exact (@c8_health_check_amended wDiscNE ["wss://a/"] none).2 0 cxFilter 99 0 1
      (by decide)

lemma scrub_prepend (c : Int) (s : Option Int) (o : RunOutput) :
    scrubRun { o with progress := fetchingBatchRecord c s :: o.progress } =
      { scrubRun o with progress :=
        fetchingBatchRecord c none :: (scrubRun o).progress } := by
  simp [scrubRun, scrubProgress, fetchingBatchRecord]

/-- C9: in any run with a nonempty target list, the caller's filter comes
back with `limit` set to 20 and `until` holding the cursor of the last
batch fetch, while `kinds`, `authors`, `#p` and `since` are untouched; the
first fetch used the initial `until`. -/
theorem c9_filter_mutation {w : SyncWorld} {targets : List String}
    {f : NDKFilter} {u0 : Int} {s : Option Int} {fuel : Nat} {out : RunOutput}
    (ht : targets ≠ []) (h : syncEvents w targets f u0 s fuel = some out) :
    out.finalFilter.limit = some batchSize ∧
    out.finalFilter.kinds = f.kinds ∧
    out.finalFilter.authors = f.authors ∧
    out.finalFilter.ptags = f.ptags ∧
    out.finalFilter.since = f.since ∧
    out.fetches.head? = some u0 ∧
    ∃ u, out.fetches.getLast? = some u ∧ out.finalFilter.untilTs = some u := by
  have ht2 : targets.isEmpty = false := isEmpty_false_of_ne_nil ht
  simp only [syncEvents, ht2, Bool.false_eq_true, if_false] at h
  cases hrec : syncLoop w targets s fuel { f with limit := some batchSize } u0 0 0 with
  | none =>
    rw [hrec] at h
    exact absurd h (by simp)
  | some o =>
    rw [hrec] at h
    simp only [Option.map_some', Option.some.injEq] at h
    rcases syncLoop_filter_spec w targets s fuel _ u0 0 0 o hrec with ⟨u, hh, hl, hfil⟩
    have hlim : o.finalFilter.limit = some batchSize := by rw [hfil]
    have hkinds : o.finalFilter.kinds = f.kinds := by rw [hfil]
    have hauthors : o.finalFilter.authors = f.authors := by rw [hfil]
    have hptags : o.finalFilter.ptags = f.ptags := by rw [hfil]
    have hsince : o.finalFilter.since = f.since := by rw [hfil]
    have huntil : o.finalFilter.untilTs = some u := by rw [hfil]
    rw [← h]
    exact ⟨hlim, hkinds, hauthors, hptags, hsince, hh, u, hl, huntil⟩

/-- C9, witness: the filter-mutation theorem at the concrete two-batch run
of `wSimple`. -/
theorem c9_filter_mutation_witness :
    outSimple.finalFilter.limit = some batchSize ∧
    outSimple.finalFilter.kinds = cxFilter.kinds ∧
    outSimple.finalFilter.authors = cxFilter.authors ∧
    outSimple.finalFilter.ptags = cxFilter.ptags ∧
    outSimple.finalFilter.since = cxFilter.since ∧
    outSimple.fetches.head? = some 200 ∧
    ∃ u, outSimple.fetches.getLast? = some u ∧
      outSimple.finalFilter.untilTs = some u :=
  @c9_filter_mutation wSimple ["wss://a/"] cxFilter 200 none 2 outSimple
    (by decide) (by decide)

/-- C10, counterexample: with a stop timestamp of exactly 0 the run is not
identical to the run with no stop timestamp — the emitted progress records
echo `stopAtTimestamp = some 0` instead of omitting the field. -/
theorem c10_zero_stop_counterexample :
    syncEvents wEmptyDisc ["wss://a/"] cxFilter 7 (some 0) 1 ≠
      syncEvents wEmptyDisc ["wss://a/"] cxFilter 7 none 1 := by
  decide

/-- C10, amended: a stop timestamp of exactly 0 steers the engine exactly
like an absent one — both stop-at checks are guarded by truthiness, so the
runs agree on the result, the publish calls, the fetch cursors, the final
filter, the counter, and on every progress field except the echoed
`stopAtTimestamp`. -/
theorem c10_zero_stop_amended :
    ∀ (w : SyncWorld) (targets : List String) (f : NDKFilter) (u0 : Int)
      (fuel : Nat),
      (syncEvents w targets f u0 (some 0) fuel).map scrubRun =
        (syncEvents w targets f u0 none fuel).map scrubRun := by
  intro w targets f u0 fuel
  by_cases ht : targets.isEmpty = true
  · simp only [syncEvents, ht, if_true]
  · have ht2 : targets.isEmpty = false := by
      rw [Bool.not_eq_true] at ht
      exact ht
    simp only [syncEvents, ht2, Bool.false_eq_true, if_false]
    have hzs := syncLoop_zero_stop w targets fuel { f with limit := some batchSize }
      u0 0 0
    cases h1 : syncLoop w targets (some 0) fuel { f with limit := some batchSize }
        u0 0 0 with
    | none =>
      cases h2 : syncLoop w targets none fuel { f with limit := some batchSize }
          u0 0 0 with
      | none => rfl
      | some o2 =>
        rw [h1, h2] at hzs
        simp at hzs
    | some o1 =>
      cases h2 : syncLoop w targets none fuel { f with limit := some batchSize }
          u0 0 0 with
      | none =>
        rw [h1, h2] at hzs
        simp at hzs
      | some o2 =>
        rw [h1, h2] at hzs
        simp only [Option.map_some', Option.some.injEq] at hzs
        simp only [Option.map_some', Option.some.injEq]
        calc scrubRun { o1 with progress := fetchingBatchRecord u0 (some 0) :: o1.progress }
            = { scrubRun o1 with progress :=
                fetchingBatchRecord u0 none :: (scrubRun o1).progress } :=
              scrub_prepend u0 (some 0) o1
          _ = { scrubRun o2 with progress :=
                fetchingBatchRecord u0 none :: (scrubRun o2).progress } := by rw [hzs]
          _ = scrubRun { o2 with progress :=
                fetchingBatchRecord u0 none :: o2.progress } :=
              (scrub_prepend u0 none o2).symm

end SyncNostrRelay
